import Mathlib

/-!
Verification development for the AI enhancement service
(`src/services/aiEnhanceService.ts`): prompt construction, retry/fallback
orchestration, cancellation and timeout handling, and defensive parsing of
the model's response payload.

Strings are modelled as Lean `String`s (lists of characters); JavaScript
numbers are modelled as rationals (`ℚ`); JavaScript exceptions are modelled
with `Except`; the network and the abort signal are modelled as oracles
supplied to the orchestrator.
-/

/-- The set of characters matched by JavaScript's `\s` regex class and
removed by `String.prototype.trim` (ASCII whitespace, NBSP, the Unicode
space separators, line separators and BOM). -/
def isWs (c : Char) : Bool :=
  c = ' ' || c = '\t' || c = '\n' || c = '\r' || c = '\x0b' || c = '\x0c' ||
  c.toNat = 0xa0 || c.toNat = 0x1680 || (0x2000 ≤ c.toNat && c.toNat ≤ 0x200a) ||
  c.toNat = 0x2028 || c.toNat = 0x2029 || c.toNat = 0x202f || c.toNat = 0x205f ||
  c.toNat = 0x3000 || c.toNat = 0xfeff

/-- `content.replace(/\\n/g, '\n')`: rewrite each literal backslash-n
two-character sequence into a newline character. -/
def unescapeNewlines : List Char → List Char
  | [] => []
  | '\\' :: 'n' :: rest => '\n' :: unescapeNewlines rest
  | c :: rest => c :: unescapeNewlines rest

/-- Worker for `content.replace(/\s+/g, ' ')`: the flag records whether we
are inside a whitespace run whose single replacement space was already
emitted. -/
def collapseWsAux : Bool → List Char → List Char
  | _, [] => []
  | prevWs, c :: rest =>
    if isWs c then
      if prevWs then collapseWsAux true rest
      else ' ' :: collapseWsAux true rest
    else c :: collapseWsAux false rest

/-- `content.replace(/\s+/g, ' ')`: every maximal whitespace run becomes a
single space. -/
def collapseWs (l : List Char) : List Char :=
  collapseWsAux false l

/-- Worker for `content.replace(/\n\s+/g, '\n')`: the flag records that the
previous character was an (emitted) newline whose trailing whitespace run is
consumed by the match, so subsequent whitespace characters are dropped until
a non-whitespace character ends the run. -/
def replaceNlWsAux : Bool → List Char → List Char
  | _, [] => []
  | skip, c :: rest =>
    if skip && isWs c then replaceNlWsAux true rest
    else if c = '\n' then '\n' :: replaceNlWsAux true rest
    else c :: replaceNlWsAux false rest

/-- `content.replace(/\n\s+/g, '\n')`: a newline followed by a whitespace
run keeps only the newline (the regex consumes the maximal run). -/
def replaceNlWs (l : List Char) : List Char :=
  replaceNlWsAux false l

/-- The effect of `/\s+\n/ → '\n'` on one maximal whitespace run: the
leftmost match pairs the longest whitespace prefix with the last newline of
the run (backtracking greedy `\s+` then a mandatory `\n`), so everything up
to and including the run's last newline collapses to one newline, provided
that newline is not the run's first character. -/
def fixWsRun (run : List Char) : List Char :=
  match run.reverse.findIdx? (fun c => c = '\n') with
  | none => run
  | some ridx =>
    let p := run.length - 1 - ridx
    if 1 ≤ p then '\n' :: run.drop (p + 1) else run

/-- Worker for `content.replace(/\s+\n/g, '\n')`: accumulate the current
maximal whitespace run (in reverse) and rewrite it with `fixWsRun` when it
ends; characters outside whitespace runs are untouched. -/
def replaceWsNlAux : List Char → List Char → List Char
  | acc, [] => fixWsRun acc.reverse
  | acc, c :: rest =>
    if isWs c then replaceWsNlAux (c :: acc) rest
    else fixWsRun acc.reverse ++ c :: replaceWsNlAux [] rest

/-- `content.replace(/\s+\n/g, '\n')` decomposed over maximal whitespace
runs. -/
def replaceWsNl (l : List Char) : List Char :=
  replaceWsNlAux [] l

/-- `String.prototype.trim` on character lists: drop leading and trailing
whitespace. -/
def jsTrimList (l : List Char) : List Char :=
  (((l.dropWhile isWs).reverse.dropWhile isWs).reverse)

/-- `aiResponse.trim()`. -/
def jsTrim (s : String) : String :=
  ⟨jsTrimList s.data⟩

/-- `formatEnhancedContent` from the source: un-escape literal newlines,
collapse whitespace runs to single spaces, clean whitespace around
newlines, then trim. -/
def formatEnhancedContentList (l : List Char) : List Char :=
  jsTrimList (replaceWsNl (replaceNlWs (collapseWs (unescapeNewlines l))))

/-- `formatEnhancedContent` lifted to `String`. -/
def formatEnhancedContent (content : String) : String :=
  ⟨formatEnhancedContentList content.data⟩

/-! ### Properties of the whitespace normalization (claim C9) -/

/-- Head of the un-escaped list: either the replacement newline or the
original head. -/
theorem unescapeNewlines_head (l : List Char) :
    ∀ y, (unescapeNewlines l).head? = some y → y = '\n' ∨ l.head? = some y := by
  induction l using unescapeNewlines.induct with
  | case1 => intro y hy; simp [unescapeNewlines] at hy
  | case2 rest ih => intro y hy; simp [unescapeNewlines] at hy; exact Or.inl hy.symm
  | case3 c rest hex ih =>
    intro y hy
    rw [unescapeNewlines.eq_3 c rest hex] at hy
    simp at hy
    exact Or.inr (by simp [hy])

/-- No backslash immediately followed by `n` anywhere in the list. -/
def noBn (l : List Char) : Prop :=
  List.Chain' (fun a b => ¬(a = '\\' ∧ b = 'n')) l

/-- No two adjacent whitespace characters. -/
def noAdjWs (l : List Char) : Prop :=
  List.Chain' (fun a b => ¬(isWs a = true ∧ isWs b = true)) l

/-- Every whitespace character of the list is a plain space. -/
def allSpaceWs (l : List Char) : Prop :=
  ∀ c ∈ l, isWs c = true → c = ' '

theorem noBn_unescapeNewlines (l : List Char) : noBn (unescapeNewlines l) := by
  induction l using unescapeNewlines.induct with
  | case1 => simp [unescapeNewlines, noBn]
  | case2 rest ih =>
    rw [unescapeNewlines.eq_2, noBn, List.chain'_cons']
    refine ⟨?_, ih⟩
    intro y _
    simp
  | case3 c rest hex ih =>
    rw [unescapeNewlines.eq_3 c rest hex, noBn, List.chain'_cons']
    refine ⟨?_, ih⟩
    intro y hy
    rintro ⟨rfl, rfl⟩
    rcases unescapeNewlines_head rest 'n' hy with h1 | h1
    · simp at h1
    · cases rest with
      | nil => simp at h1
      | cons e rest2 =>
        simp at h1
        exact hex rest2 rfl (by rw [h1])

theorem allSpaceWs_collapseWsAux (l : List Char) : ∀ b, allSpaceWs (collapseWsAux b l) := by
  induction l with
  | nil => intro b c hc; simp [collapseWsAux] at hc
  | cons c rest ih =>
    intro b d hd hws
    simp only [collapseWsAux] at hd
    split at hd
    · split at hd
      · exact ih true d hd hws
      · rcases List.mem_cons.mp hd with rfl | hmem
        · rfl
        · exact ih true d hmem hws
    · rcases List.mem_cons.mp hd with rfl | hmem
      · rename_i hnws
        exact absurd hws (by simp [hnws])
      · exact ih false d hmem hws

theorem head_collapseWsAux_true (l : List Char) :
    ∀ y, (collapseWsAux true l).head? = some y → isWs y = false := by
  induction l with
  | nil => intro y hy; simp [collapseWsAux] at hy
  | cons c rest ih =>
    intro y hy
    simp only [collapseWsAux] at hy
    split at hy
    · exact ih y hy
    · rename_i hnws
      simp at hy
      subst hy
      simpa using hnws

theorem head_collapseWsAux_false (l : List Char) :
    ∀ y, (collapseWsAux false l).head? = some y → y = ' ' ∨ l.head? = some y := by
  intro y hy
  cases l with
  | nil => simp [collapseWsAux] at hy
  | cons c rest =>
    simp only [collapseWsAux] at hy
    split at hy
    · simp at hy
      exact Or.inl hy.symm
    · simp at hy
      exact Or.inr (by simp [hy])

theorem noAdjWs_collapseWsAux (l : List Char) : ∀ b, noAdjWs (collapseWsAux b l) := by
  induction l with
  | nil => intro b; simp [collapseWsAux, noAdjWs]
  | cons c rest ih =>
    intro b
    simp only [collapseWsAux]
    split
    · split
      · exact ih true
      · rw [noAdjWs, List.chain'_cons']
        refine ⟨?_, ih true⟩
        intro y hy
        have := head_collapseWsAux_true rest y hy
        simp [this]
    · rename_i hnws
      rw [noAdjWs, List.chain'_cons']
      refine ⟨?_, ih false⟩
      intro y _
      simp [hnws]

theorem noBn_collapseWsAux (l : List Char) (hl : noBn l) : ∀ b, noBn (collapseWsAux b l) := by
  induction l with
  | nil => intro b; simp [collapseWsAux, noBn]
  | cons c rest ih =>
    have htail : noBn rest := List.Chain'.tail hl
    intro b
    simp only [collapseWsAux]
    split
    · split
      · exact ih htail true
      · rw [noBn, List.chain'_cons']
        refine ⟨?_, ih htail true⟩
        intro y _
        simp
    · rw [noBn, List.chain'_cons']
      refine ⟨?_, ih htail false⟩
      intro y hy
      rcases head_collapseWsAux_false rest y hy with rfl | hhead
      · simp
      · rintro ⟨rfl, rfl⟩
        rw [noBn] at hl
        cases rest with
        | nil => simp at hhead
        | cons e rest2 =>
          simp at hhead
          subst hhead
          exact (List.chain'_cons.mp hl).1 ⟨rfl, rfl⟩


theorem replaceNlWsAux_id (l : List Char) (h : ∀ c ∈ l, c ≠ '\n') :
    replaceNlWsAux false l = l := by
  induction l with
  | nil => rfl
  | cons c rest ih =>
    have hc : c ≠ '\n' := h c (by simp)
    simp only [replaceNlWsAux, Bool.false_and, Bool.false_eq_true, if_false, if_neg hc]
    rw [ih (fun d hd => h d (by simp [hd]))]

theorem fixWsRun_id (run : List Char) (h : ∀ c ∈ run, c ≠ '\n') : fixWsRun run = run := by
  rw [fixWsRun]
  have hnone : run.reverse.findIdx? (fun c => c = '\n') = none := by
    rw [List.findIdx?_eq_none_iff]
    intro x hx
    simpa using h x (List.mem_reverse.mp hx)
  rw [hnone]

theorem replaceWsNlAux_id (l : List Char) : ∀ acc : List Char,
    (∀ c ∈ acc, c ≠ '\n') → (∀ c ∈ l, c ≠ '\n') →
    replaceWsNlAux acc l = acc.reverse ++ l := by
  induction l with
  | nil =>
    intro acc hacc _
    simp only [replaceWsNlAux, List.append_nil]
    exact fixWsRun_id _ (fun c hc => hacc c (List.mem_reverse.mp hc))
  | cons c rest ih =>
    intro acc hacc h
    simp only [replaceWsNlAux]
    split
    · rw [ih (c :: acc) (by
        intro d hd
        rcases List.mem_cons.mp hd with rfl | hd2
        · exact h d (by simp)
        · exact hacc d hd2) (fun d hd => h d (by simp [hd]))]
      simp
    · rw [fixWsRun_id _ (fun d hd => hacc d (List.mem_reverse.mp hd)),
        ih [] (by simp) (fun d hd => h d (by simp [hd]))]
      simp

theorem replaceNlWs_id (l : List Char) (h : ∀ c ∈ l, c ≠ '\n') : replaceNlWs l = l :=
  replaceNlWsAux_id l h

theorem replaceWsNl_id (l : List Char) (h : ∀ c ∈ l, c ≠ '\n') : replaceWsNl l = l := by
  rw [replaceWsNl, replaceWsNlAux_id l [] (by simp) h]
  rfl

theorem head_dropWhile_not (p : Char → Bool) (l : List Char) :
    ∀ y, (l.dropWhile p).head? = some y → p y = false := by
  induction l with
  | nil => intro y hy; simp at hy
  | cons c rest ih =>
    intro y hy
    rw [List.dropWhile_cons] at hy
    split at hy
    · exact ih y hy
    · simp at hy
      subst hy
      rename_i hp
      simpa using hp

theorem jsTrimList_prefix_dropWhile (l : List Char) :
    jsTrimList l <+: l.dropWhile isWs := by
  rw [jsTrimList]
  rw [← List.reverse_suffix]
  simp only [List.reverse_reverse]
  exact List.dropWhile_suffix isWs

theorem jsTrimList_infix (l : List Char) : jsTrimList l <:+: l :=
  (jsTrimList_prefix_dropWhile l).isInfix.trans (List.dropWhile_suffix isWs).isInfix

theorem jsTrimList_head_not_ws (l : List Char) :
    ∀ y, (jsTrimList l).head? = some y → isWs y = false := by
  intro y hy
  rcases jsTrimList_prefix_dropWhile l with ⟨t, ht⟩
  have : (l.dropWhile isWs).head? = some y := by
    rw [← ht]
    cases htrim : jsTrimList l with
    | nil => rw [htrim] at hy; simp at hy
    | cons a s =>
      rw [htrim] at hy
      simp at hy
      simp [hy]
  exact head_dropWhile_not isWs l y this

theorem jsTrimList_last_not_ws (l : List Char) :
    ∀ y, (jsTrimList l).reverse.head? = some y → isWs y = false := by
  intro y hy
  rw [jsTrimList, List.reverse_reverse] at hy
  exact head_dropWhile_not isWs _ y hy

theorem dropWhile_eq_self_of_head (p : Char → Bool) (l : List Char)
    (h : ∀ y, l.head? = some y → p y = false) : l.dropWhile p = l := by
  cases l with
  | nil => rfl
  | cons c rest =>
    rw [List.dropWhile_cons, if_neg (by simp [h c rfl])]

theorem jsTrimList_id (m : List Char)
    (hhead : ∀ y, m.head? = some y → isWs y = false)
    (hlast : ∀ y, m.reverse.head? = some y → isWs y = false) : jsTrimList m = m := by
  rw [jsTrimList, dropWhile_eq_self_of_head isWs m hhead,
    dropWhile_eq_self_of_head isWs m.reverse hlast, List.reverse_reverse]

theorem unescapeNewlines_id (m : List Char) (h : noBn m) : unescapeNewlines m = m := by
  induction m using unescapeNewlines.induct with
  | case1 => simp [unescapeNewlines]
  | case2 rest ih =>
    exfalso
    exact (List.chain'_cons.mp h).1 ⟨rfl, rfl⟩
  | case3 c rest hex ih =>
    rw [unescapeNewlines.eq_3 c rest hex, ih (List.Chain'.tail h)]

theorem collapseWsAux_id (m : List Char) : ∀ b : Bool,
    allSpaceWs m → noAdjWs m →
    (b = true → ∀ y, m.head? = some y → isWs y = false) →
    collapseWsAux b m = m := by
  induction m with
  | nil => intro b _ _ _; rfl
  | cons c rest ih =>
    intro b hall hadj hb
    simp only [collapseWsAux]
    by_cases hws : isWs c = true
    · rw [if_pos hws]
      have hc : c = ' ' := hall c (by simp) hws
      have hbfalse : b = false := by
        cases b with
        | false => rfl
        | true => exact absurd hws (by simp [hb rfl c rfl])
      subst hbfalse
      simp only [Bool.false_eq_true, if_false]
      rw [hc, ih true (fun d hd h2 => hall d (by simp [hd]) h2) (List.Chain'.tail hadj)
        (by
          intro _ y hy
          cases rest with
          | nil => simp at hy
          | cons e rest2 =>
            simp at hy
            subst hy
            rw [noAdjWs, List.chain'_cons] at hadj
            by_contra hcon
            exact hadj.1 ⟨hws, by simpa using hcon⟩)]
    · rw [if_neg hws, ih false (fun d hd h2 => hall d (by simp [hd]) h2)
        (List.Chain'.tail hadj) (by intro hcon; exact absurd hcon (by simp))]

theorem collapseWsAux_no_nl (l : List Char) (b : Bool) :
    ∀ c ∈ collapseWsAux b l, c ≠ '\n' := by
  intro c hc heq
  subst heq
  have h := allSpaceWs_collapseWsAux l b '\n' hc (by decide)
  simp at h

theorem formatEnhancedContentList_eq_trim_collapse (l : List Char) :
    formatEnhancedContentList l = jsTrimList (collapseWs (unescapeNewlines l)) := by
  rw [formatEnhancedContentList,
    replaceNlWs_id (collapseWs (unescapeNewlines l))
      (fun c hc => collapseWsAux_no_nl (unescapeNewlines l) false c hc),
    replaceWsNl_id (collapseWs (unescapeNewlines l))
      (fun c hc => collapseWsAux_no_nl (unescapeNewlines l) false c hc)]

theorem formatEnhancedContentList_idem (l : List Char) :
    formatEnhancedContentList (formatEnhancedContentList l) = formatEnhancedContentList l := by
  rw [formatEnhancedContentList_eq_trim_collapse l]
  set k := collapseWs (unescapeNewlines l) with hk
  set m := jsTrimList k with hm
  have hinfx : m <:+: k := jsTrimList_infix k
  have hall : allSpaceWs m := fun c hc h2 =>
    allSpaceWs_collapseWsAux (unescapeNewlines l) false c (hinfx.subset hc) h2
  have hadj : noAdjWs m := by
    have h2 : noAdjWs k := noAdjWs_collapseWsAux (unescapeNewlines l) false
    exact List.Chain'.infix h2 hinfx
  have hbn : noBn m := by
    have h2 : noBn k := noBn_collapseWsAux (unescapeNewlines l) (noBn_unescapeNewlines l) false
    exact List.Chain'.infix h2 hinfx
  have hnl : ∀ c ∈ m, c ≠ '\n' := by
    intro c hc heq
    subst heq
    have := hall '\n' hc (by decide)
    simp at this
  rw [formatEnhancedContentList, unescapeNewlines_id m hbn, collapseWs,
    collapseWsAux_id m false hall hadj (by intro hcon; exact absurd hcon (by simp)),
    replaceNlWs_id m hnl, replaceWsNl_id m hnl,
    jsTrimList_id m (jsTrimList_head_not_ws k) (jsTrimList_last_not_ws k)]

/-- C9: the whitespace/newline normalization `formatEnhancedContent` applied to
extracted enhanced content is idempotent: normalizing an already-normalized
string returns it unchanged (normalization is a fixed point on its output). -/
theorem formatEnhancedContent_idempotent (s : String) :
    formatEnhancedContent (formatEnhancedContent s) = formatEnhancedContent s := by
  simp only [formatEnhancedContent]
  rw [formatEnhancedContentList_idem]

/-! ### JavaScript value model and `JSON.parse` for the response parser -/

/-- Values produced by `JSON.parse`. -/
inductive JsValue where
  | null
  | bool (b : Bool)
  | num (q : ℚ)
  | str (s : String)
  | arr (elems : List JsValue)
  | obj (fields : List (String × JsValue))

/-- JavaScript truthiness of a `JSON.parse` result (`NaN` cannot occur in
parsed JSON). -/
def jsTruthy : JsValue → Bool
  | .null => false
  | .bool b => b
  | .num q => decide (q ≠ 0)
  | .str s => decide (s ≠ "")
  | .arr _ => true
  | .obj _ => true

/-- `typeof v === 'object'` for a `JSON.parse` result: true exactly for
objects, arrays and `null`. -/
def isTypeofObject : JsValue → Bool
  | .null => true
  | .arr _ => true
  | .obj _ => true
  | _ => false

/-- `typeof v === 'string'`. -/
def isJsString : JsValue → Bool
  | .str _ => true
  | _ => false

/-- Own-property lookup on a `JSON.parse` result. `JSON.parse` keeps the last
of duplicate keys, hence the reverse search. Prototype-chain properties are
not modelled; non-objects yield `undefined` (`none`). -/
def jsGetProp : JsValue → String → Option JsValue
  | .obj fields, k => (fields.reverse.find? (fun p => p.1 == k)).map (fun p => p.2)
  | _, _ => none

/-- JSON insignificant whitespace (ECMA-404): space, tab, newline, carriage
return. -/
def isJsonWs (c : Char) : Bool :=
  c = ' ' || c = '\t' || c = '\n' || c = '\r'

/-- Skip JSON whitespace. -/
def skipJsonWs (l : List Char) : List Char :=
  l.dropWhile isJsonWs

/-- Value of a hexadecimal digit. -/
def hexVal? (c : Char) : Option Nat :=
  if '0' ≤ c ∧ c ≤ '9' then some (c.toNat - '0'.toNat)
  else if 'a' ≤ c ∧ c ≤ 'f' then some (c.toNat - 'a'.toNat + 10)
  else if 'A' ≤ c ∧ c ≤ 'F' then some (c.toNat - 'A'.toNat + 10)
  else none

/-- Four hexadecimal digits of a `\u` escape. -/
def parseHex4 : List Char → Option (Nat × List Char)
  | a :: b :: c :: d :: rest => do
    let x ← hexVal? a
    let y ← hexVal? b
    let z ← hexVal? c
    let w ← hexVal? d
    pure (((x * 16 + y) * 16 + z) * 16 + w, rest)
  | _ => none

/-- Body of a JSON string after the opening quote: characters up to the
closing quote, processing escapes. Surrogate pairs in `\u` escapes are
combined; a lone surrogate (not representable as a Lean scalar value) makes
the parse fail, a deliberate model restriction. Unescaped control characters
are a JSON error. -/
def parseStringBody : Nat → List Char → Option (List Char × List Char)
  | 0, _ => none
  | _, [] => none
  | fuel + 1, c :: rest =>
    if c = '"' then some ([], rest)
    else if c = '\\' then
      match rest with
      | [] => none
      | e :: rest2 =>
        if e = '"' then (parseStringBody fuel rest2).map (fun p => ('"' :: p.1, p.2))
        else if e = '\\' then (parseStringBody fuel rest2).map (fun p => ('\\' :: p.1, p.2))
        else if e = '/' then (parseStringBody fuel rest2).map (fun p => ('/' :: p.1, p.2))
        else if e = 'b' then (parseStringBody fuel rest2).map (fun p => ('\x08' :: p.1, p.2))
        else if e = 'f' then (parseStringBody fuel rest2).map (fun p => ('\x0c' :: p.1, p.2))
        else if e = 'n' then (parseStringBody fuel rest2).map (fun p => ('\n' :: p.1, p.2))
        else if e = 'r' then (parseStringBody fuel rest2).map (fun p => ('\r' :: p.1, p.2))
        else if e = 't' then (parseStringBody fuel rest2).map (fun p => ('\t' :: p.1, p.2))
        else if e = 'u' then
          match parseHex4 rest2 with
          | none => none
          | some (n, rest3) =>
            if 0xd800 ≤ n ∧ n ≤ 0xdbff then
              match rest3 with
              | '\\' :: 'u' :: rest4 =>
                match parseHex4 rest4 with
                | some (n2, rest5) =>
                  if 0xdc00 ≤ n2 ∧ n2 ≤ 0xdfff then
                    (parseStringBody fuel rest5).map (fun p =>
                      (Char.ofNat (0x10000 + (n - 0xd800) * 0x400 + (n2 - 0xdc00)) :: p.1, p.2))
                  else none
                | none => none
              | _ => none
            else (parseStringBody fuel rest3).map (fun p => (Char.ofNat n :: p.1, p.2))
        else none
    else if c.toNat < 0x20 then none
    else (parseStringBody fuel rest).map (fun p => (c :: p.1, p.2))

/-- Numeric value of a list of decimal digits. -/
def natOfDigits (ds : List Char) : Nat :=
  ds.foldl (fun a c => a * 10 + (c.toNat - '0'.toNat)) 0

/-- Optional exponent part `([eE][+-]?digits)?`; returns the signed exponent
and the remainder. -/
def parseExp : List Char → Option (Int × List Char)
  | [] => some (0, [])
  | c :: r =>
    if c = 'e' ∨ c = 'E' then
      let sr : Int × List Char :=
        match r with
        | '+' :: r3 => (1, r3)
        | '-' :: r3 => (-1, r3)
        | _ => (1, r)
      let ds := sr.2.takeWhile Char.isDigit
      if ds = [] then none
      else some (sr.1 * (natOfDigits ds : Int), sr.2.dropWhile Char.isDigit)
    else some (0, c :: r)

/-- Assemble a rational from sign, integer digits, fraction digits and a
decimal exponent. -/
def assembleNumber (neg : Bool) (ints fracs : List Char) (e : Int) : ℚ :=
  let m : Int := (natOfDigits (ints ++ fracs) : Int)
  let m := if neg then -m else m
  let exp10 : Int := e - (fracs.length : Int)
  if 0 ≤ exp10 then (m : ℚ) * (10 : ℚ) ^ exp10.toNat
  else (m : ℚ) / (10 : ℚ) ^ (-exp10).toNat

/-- A JSON number: `-? (0 | [1-9][0-9]*) (\.[0-9]+)? ([eE][+-]?[0-9]+)?`.
JavaScript number values are modelled as exact rationals. -/
def parseNumber (l : List Char) : Option (ℚ × List Char) :=
  let sl : Bool × List Char := match l with | '-' :: r => (true, r) | _ => (false, l)
  match sl.2 with
  | [] => none
  | c :: _ =>
    if c.isDigit = false then none
    else
      let ints := sl.2.takeWhile Char.isDigit
      let l2 := sl.2.dropWhile Char.isDigit
      if 2 ≤ ints.length ∧ ints.headD '0' = '0' then none
      else
        match l2 with
        | '.' :: r =>
          let fracs := r.takeWhile Char.isDigit
          if fracs = [] then none
          else
            match parseExp (r.dropWhile Char.isDigit) with
            | none => none
            | some (e, l4) => some (assembleNumber sl.1 ints fracs e, l4)
        | _ =>
          match parseExp l2 with
          | none => none
          | some (e, l4) => some (assembleNumber sl.1 ints [] e, l4)

mutual

/-- A JSON value with leading whitespace, returning the remainder. The fuel
argument only ensures termination; `jsonParse` supplies enough for any
input. -/
def parseValue : Nat → List Char → Option (JsValue × List Char)
  | 0, _ => none
  | fuel + 1, l =>
    match skipJsonWs l with
    | [] => none
    | '{' :: rest => parseObjRest fuel rest
    | '[' :: rest => parseArrRest fuel rest
    | '"' :: rest => (parseStringBody (rest.length + 1) rest).map (fun p => (.str ⟨p.1⟩, p.2))
    | 't' :: 'r' :: 'u' :: 'e' :: rest => some (.bool true, rest)
    | 'f' :: 'a' :: 'l' :: 's' :: 'e' :: rest => some (.bool false, rest)
    | 'n' :: 'u' :: 'l' :: 'l' :: rest => some (.null, rest)
    | c :: rest =>
      if c = '-' ∨ c.isDigit then (parseNumber (c :: rest)).map (fun p => (.num p.1, p.2))
      else none
termination_by structural fuel _ => fuel

/-- Inside an object, after `{`. -/
def parseObjRest : Nat → List Char → Option (JsValue × List Char)
  | 0, _ => none
  | fuel + 1, l =>
    match skipJsonWs l with
    | '}' :: rest => some (.obj [], rest)
    | l2 => parseMembers fuel l2 []
termination_by structural fuel _ => fuel

/-- Non-empty member list of an object (accumulator in reverse order). -/
def parseMembers : Nat → List Char → List (String × JsValue) → Option (JsValue × List Char)
  | 0, _, _ => none
  | fuel + 1, l, acc =>
    match skipJsonWs l with
    | '"' :: rest =>
      match parseStringBody (rest.length + 1) rest with
      | none => none
      | some (k, r1) =>
        match skipJsonWs r1 with
        | ':' :: r2 =>
          match parseValue fuel r2 with
          | none => none
          | some (v, r3) =>
            match skipJsonWs r3 with
            | ',' :: r4 => parseMembers fuel r4 ((⟨k⟩, v) :: acc)
            | '}' :: r4 => some (.obj ((⟨k⟩, v) :: acc).reverse, r4)
            | _ => none
        | _ => none
    | _ => none
termination_by structural fuel _ _ => fuel

/-- Inside an array, after `[`. -/
def parseArrRest : Nat → List Char → Option (JsValue × List Char)
  | 0, _ => none
  | fuel + 1, l =>
    match skipJsonWs l with
    | ']' :: rest => some (.arr [], rest)
    | l2 => parseElems fuel l2 []
termination_by structural fuel _ => fuel

/-- Non-empty element list of an array (accumulator in reverse order). -/
def parseElems : Nat → List Char → List JsValue → Option (JsValue × List Char)
  | 0, _, _ => none
  | fuel + 1, l, acc =>
    match parseValue fuel l with
    | none => none
    | some (v, r) =>
      match skipJsonWs r with
      | ',' :: r2 => parseElems fuel r2 (v :: acc)
      | ']' :: r2 => some (.arr (v :: acc).reverse, r2)
      | _ => none
termination_by structural fuel _ _ => fuel

end

/-- `JSON.parse`: parse a complete JSON document; anything but trailing
whitespace after the value is an error. -/
def jsonParse (s : String) : Option JsValue :=
  match parseValue (2 * s.data.length + 2) s.data with
  | some (v, rest) => if skipJsonWs rest = [] then some v else none
  | none => none

/-! ### JavaScript string and number conversions -/

/-- Digits of the fractional part of a rational in `[0,1)`; stops when the
remainder is zero (double-precision values reachable here always
terminate) or when the fuel runs out. -/
def fracDigits : Nat → ℚ → List Char
  | 0, _ => []
  | fuel + 1, q =>
    if q = 0 then []
    else
      let q10 := q * 10
      let d := q10.floor
      Char.ofNat ('0'.toNat + d.toNat) :: fracDigits fuel (q10 - (d : ℚ))

/-- `String(n)` for a number: decimal rendering (exponential notation for
extreme magnitudes is not modelled; no claim inspects such output). -/
def numToString (q : ℚ) : String :=
  if q.den = 1 then toString q.num
  else
    (if q < 0 then "-" else "") ++ toString |q|.floor ++ "." ++ ⟨fracDigits 400 (|q| - (|q|.floor : ℚ))⟩

mutual

/-- `String(v)` for a `JSON.parse` result. -/
def jsToString : JsValue → String
  | .null => "null"
  | .bool b => if b then "true" else "false"
  | .num q => numToString q
  | .str s => s
  | .arr xs => joinElems xs
  | .obj _ => "[object Object]"

/-- `Array.prototype.toString = join(',')`: `null` elements render as the
empty string. -/
def joinElems : List JsValue → String
  | [] => ""
  | [v] => elemStr v
  | v :: rest => elemStr v ++ "," ++ joinElems rest

/-- One array element inside `join`: `null` (and `undefined`) become `''`. -/
def elemStr : JsValue → String
  | .null => ""
  | v => jsToString v

end

/-- Digits of a number in the given base via a per-character digit reader;
fails if empty or if any character is not a digit of the base. -/
def digitsVal (base : Nat) (val? : Char → Option Nat) : List Char → Option Nat
  | [] => none
  | ds => ds.foldlM (fun acc c => (val? c).map (fun v => acc * base + v)) 0

/-- Decimal `StrDecimalLiteral` of JavaScript's `Number(string)`:
`[+-]? digits [. digits] [exponent]` with at least one digit, consuming the
whole input. `Infinity` is not representable in the rational model and
yields `none` (NaN); no claim depends on it. -/
def strDecimal (l : List Char) : Option ℚ :=
  let sl : Bool × List Char :=
    match l with
    | '-' :: r => (true, r)
    | '+' :: r => (false, r)
    | _ => (false, l)
  let ints := sl.2.takeWhile Char.isDigit
  let l2 := sl.2.dropWhile Char.isDigit
  let fr : Option (List Char × List Char) :=
    match l2 with
    | '.' :: r => some (r.takeWhile Char.isDigit, r.dropWhile Char.isDigit)
    | _ => some ([], l2)
  match fr with
  | none => none
  | some (fracs, l3) =>
    if ints = [] ∧ fracs = [] then none
    else
      match parseExp l3 with
      | none => none
      | some (e, l4) =>
        if l4 = [] then some (assembleNumber sl.1 ints fracs e) else none

/-- `Number(string)`: trim, empty means `0`, then a decimal literal or an
unsigned `0x`/`0o`/`0b` radix literal; `none` models NaN. -/
def strToNumber (s : String) : Option ℚ :=
  let l := jsTrimList s.data
  match l with
  | [] => some 0
  | '0' :: x :: rest =>
    if x = 'x' ∨ x = 'X' then (digitsVal 16 hexVal? rest).map (fun n => (n : ℚ))
    else if x = 'o' ∨ x = 'O' then
      (digitsVal 8 (fun c => if '0' ≤ c ∧ c ≤ '7' then some (c.toNat - '0'.toNat) else none) rest).map
        (fun n => (n : ℚ))
    else if x = 'b' ∨ x = 'B' then
      (digitsVal 2 (fun c => if c = '0' ∨ c = '1' then some (c.toNat - '0'.toNat) else none) rest).map
        (fun n => (n : ℚ))
    else strDecimal l
  | _ => strDecimal l

/-- `Number(v)` for a `JSON.parse` result; `none` models NaN. Arrays convert
through their joined string form, objects are NaN. -/
def jsToNumber : JsValue → Option ℚ
  | .null => some 0
  | .bool b => some (if b then 1 else 0)
  | .num q => some q
  | .str s => strToNumber s
  | .arr xs => strToNumber (joinElems xs)
  | .obj _ => none

/-- Escape one character for `JSON.stringify` string output. -/
def jsonEscapeChar (c : Char) : List Char :=
  if c = '"' then ['\\', '"']
  else if c = '\\' then ['\\', '\\']
  else if c = '\n' then ['\\', 'n']
  else if c = '\r' then ['\\', 'r']
  else if c = '\t' then ['\\', 't']
  else if c = '\x08' then ['\\', 'b']
  else if c = '\x0c' then ['\\', 'f']
  else if c.toNat < 0x20 then
    let hex := fun (n : Nat) => if n < 10 then Char.ofNat ('0'.toNat + n) else Char.ofNat ('a'.toNat + n - 10)
    ['\\', 'u', '0', '0', hex (c.toNat / 16), hex (c.toNat % 16)]
  else [c]

/-- Quoted, escaped JSON string literal. -/
def quoteJsonString (s : String) : String :=
  ⟨'"' :: (s.data.flatMap jsonEscapeChar) ++ ['"']⟩

/-- `n` spaces. -/
def indentSpaces (n : Nat) : String :=
  ⟨List.replicate n ' '⟩

mutual

/-- `JSON.stringify(v, null, 2)` at the given current indentation. -/
def jsonStringify2 : JsValue → Nat → String
  | .null, _ => "null"
  | .bool b, _ => if b then "true" else "false"
  | .num q, _ => numToString q
  | .str s, _ => quoteJsonString s
  | .arr [], _ => "[]"
  | .arr (x :: xs), ind =>
    "[\n" ++ stringifyItems (x :: xs) (ind + 2) ++ "\n" ++ indentSpaces ind ++ "]"
  | .obj [], _ => "\x7b\x7d"
  | .obj (f :: fs), ind =>
    "\x7b\n" ++ stringifyFields (f :: fs) (ind + 2) ++ "\n" ++ indentSpaces ind ++ "\x7d"

/-- Array items, one per line at the given indentation. -/
def stringifyItems : List JsValue → Nat → String
  | [], _ => ""
  | [v], ind => indentSpaces ind ++ jsonStringify2 v ind
  | v :: rest, ind => indentSpaces ind ++ jsonStringify2 v ind ++ ",\n" ++ stringifyItems rest ind

/-- Object fields, one per line at the given indentation. -/
def stringifyFields : List (String × JsValue) → Nat → String
  | [], _ => ""
  | [(k, v)], ind => indentSpaces ind ++ quoteJsonString k ++ ": " ++ jsonStringify2 v ind
  | (k, v) :: rest, ind =>
    indentSpaces ind ++ quoteJsonString k ++ ": " ++ jsonStringify2 v ind ++ ",\n" ++
      stringifyFields rest ind

end

/-! ### The response parser `parseAIResponse` -/

/-- `cleanedResponse.replace(/^```(?:json)?\s*/, '')`: strip an opening
markdown fence (three backticks, an optional `json` tag, then any
whitespace) anchored at the start. -/
def stripFenceStartList (l : List Char) : List Char :=
  match l with
  | '`' :: '`' :: '`' :: rest =>
    let rest2 := if rest.take 4 = ['j', 's', 'o', 'n'] then rest.drop 4 else rest
    rest2.dropWhile isWs
  | _ => l

/-- `.replace(/\s*```$/, '')`: strip a closing fence at the very end
together with the whitespace run immediately before it (the leftmost match
of `\s*<fence>$` is exactly that suffix). -/
def stripFenceEndList (l : List Char) : List Char :=
  if l.reverse.take 3 = ['`', '`', '`'] then
    ((l.reverse.drop 3).dropWhile isWs).reverse
  else l

/-- Both fence-stripping replacements, in source order. -/
def stripCodeFences (s : String) : String :=
  ⟨stripFenceEndList (stripFenceStartList s.data)⟩

/-- Is `needle` a prefix of `hay`? -/
def hasPrefixList : List Char → List Char → Bool
  | [], _ => true
  | _ :: _, [] => false
  | a :: as, b :: bs => a == b && hasPrefixList as bs

/-- `hay.includes(needle)` (substring test). -/
def containsSubList (needle : List Char) : List Char → Bool
  | [] => hasPrefixList needle []
  | c :: rest => hasPrefixList needle (c :: rest) || containsSubList needle rest

/-- `s.includes(sub)`. -/
def strIncludes (s sub : String) : Bool :=
  containsSubList sub.data s.data

/-- The result shape produced by the parser. `improvementsSummary` keeps the
raw JavaScript values: the source copies whatever array the payload held
without checking element types. -/
structure EnhancementResult where
  enhancedContent : String
  improvementsSummary : List JsValue
  confidence : ℚ

/-- `Math.min(Math.max(Number(conf) || 0.8, 0), 1)`: NaN and `0` are falsy,
so both fall back to the 0.8 default before clamping into `[0,1]`. -/
def confidenceValue (v : Option JsValue) : ℚ :=
  let n : Option ℚ := match v with | none => none | some x => jsToNumber x
  let base : ℚ := match n with | none => (0.8 : ℚ) | some q => if q = 0 then (0.8 : ℚ) else q
  min (max base 0) 1

/-- `Array.isArray(x) ? x : [x || 'AI enhancement applied']`. -/
def coerceSummary (v : Option JsValue) : List JsValue :=
  match v with
  | some (.arr xs) => xs
  | some x => if jsTruthy x then [x] else [.str "AI enhancement applied"]
  | none => [.str "AI enhancement applied"]

/-- Truthiness of `v.enhancedContent`-style optional property values
(`undefined` is falsy). -/
def optTruthy : Option JsValue → Bool
  | some x => jsTruthy x
  | none => false

/-- The `some` branch of the parser body: what the source does with a
successfully `JSON.parse`d value. `.error ()` marks the one way it can
throw: `formatEnhancedContent` calling `.replace` on a truthy non-string
`enhancedContent` (a `TypeError`). -/
def handleParsedResponse (parsedResponse : JsValue) : Except Unit EnhancementResult :=
  if jsTruthy parsedResponse && isTypeofObject parsedResponse then
    -- Case 1: standard JSON response with an enhancedContent field
    if optTruthy (jsGetProp parsedResponse "enhancedContent") then
      match jsGetProp parsedResponse "enhancedContent" with
      | some (.str s) =>
        .ok { enhancedContent := formatEnhancedContent s,
              improvementsSummary := coerceSummary (jsGetProp parsedResponse "improvementsSummary"),
              confidence := confidenceValue (jsGetProp parsedResponse "confidence") }
      | _ => .error ()
    else if isJsString parsedResponse && strIncludes (jsToString parsedResponse) "enhancedContent" then
      -- Case 2: the AI returned JSON as a string value. Unreachable: a
      -- string is never `typeof === 'object'`, faithfully mirroring the
      -- dead branch of the source.
      match parsedResponse with
      | .str inner =>
        (match jsonParse inner with
         | some innerParsed =>
           if optTruthy (jsGetProp innerParsed "enhancedContent") then
             match jsGetProp innerParsed "enhancedContent" with
             | some (.str t) =>
               .ok { enhancedContent := formatEnhancedContent t,
                     improvementsSummary := coerceSummary (jsGetProp innerParsed "improvementsSummary"),
                     confidence := confidenceValue (jsGetProp innerParsed "confidence") }
             | _ =>
               -- TypeError inside the inner try: caught, fall through to Case 3
               .ok { enhancedContent := formatEnhancedContent inner,
                     improvementsSummary := [.str "AI enhancement applied"],
                     confidence := (0.7 : ℚ) }
           else
             .ok { enhancedContent := formatEnhancedContent inner,
                   improvementsSummary := [.str "AI enhancement applied"],
                   confidence := (0.7 : ℚ) }
         | none =>
           .ok { enhancedContent := formatEnhancedContent inner,
                 improvementsSummary := [.str "AI enhancement applied"],
                 confidence := (0.7 : ℚ) })
      | _ =>
        .ok { enhancedContent := formatEnhancedContent (jsonStringify2 parsedResponse 0),
              improvementsSummary := [.str "AI enhancement applied"],
              confidence := (0.7 : ℚ) }
    else
      -- Case 3: JSON object without enhancedContent field - use entire content
      .ok { enhancedContent :=
              formatEnhancedContent
                (match parsedResponse with
                 | .str s => s
                 | v => jsonStringify2 v 0),
            improvementsSummary := [.str "AI enhancement applied"],
            confidence := (0.7 : ℚ) }
  else
    -- Case 4: parsed response is not an object
    .ok { enhancedContent := formatEnhancedContent (jsToString parsedResponse),
          improvementsSummary := [.str "AI enhancement applied"],
          confidence := (0.7 : ℚ) }

/-- The body of `parseAIResponse`'s outer `try`: trim, strip fences, then
either the not-JSON fallback or the parsed-value handling. -/
def tryParseAI (aiResponse : String) : Except Unit EnhancementResult :=
  match jsonParse (stripCodeFences (jsTrim aiResponse)) with
  | none =>
    -- not valid JSON: treat the entire response as enhanced content
    .ok { enhancedContent := formatEnhancedContent aiResponse,
          improvementsSummary := [.str "AI enhancement applied"],
          confidence := (0.8 : ℚ) }
  | some parsedResponse => handleParsedResponse parsedResponse

/-- `parseAIResponse` from the source: the outer `catch` produces the final
fallback with confidence 0.6. -/
def parseAIResponse (aiResponse : String) : EnhancementResult :=
  match tryParseAI aiResponse with
  | .ok r => r
  | .error _ =>
    { enhancedContent := formatEnhancedContent aiResponse,
      improvementsSummary := [.str "AI enhancement applied (fallback parsing)"],
      confidence := (0.6 : ℚ) }

/-- The clamp used for parsed confidence always lands in `[0,1]`. -/
theorem confidenceValue_mem (v : Option JsValue) :
    0 ≤ confidenceValue v ∧ confidenceValue v ≤ 1 := by
  unfold confidenceValue
  refine ⟨le_min (le_max_right _ _) (by norm_num), min_le_right _ _⟩

/-- With a failed `JSON.parse`, the body returns the raw-text fallback. -/
theorem tryParseAI_eq_none (s : String)
    (hj : jsonParse (stripCodeFences (jsTrim s)) = none) :
    tryParseAI s = .ok { enhancedContent := formatEnhancedContent s,
                         improvementsSummary := [.str "AI enhancement applied"],
                         confidence := (0.8 : ℚ) } := by
  unfold tryParseAI
  rw [hj]

/-- With a successful `JSON.parse`, the body defers to
`handleParsedResponse`. -/
theorem tryParseAI_eq_some (s : String) (p : JsValue)
    (hj : jsonParse (stripCodeFences (jsTrim s)) = some p) :
    tryParseAI s = handleParsedResponse p := by
  unfold tryParseAI
  rw [hj]

/-- In the object branch the parsed value is an array or object, never a
string, so the `typeof === 'string'` test of Case 2 is false. -/
theorem case2_guard_false (p : JsValue) (h1 : (jsTruthy p && isTypeofObject p) = true) :
    isJsString p = false := by
  cases p <;> simp_all [jsTruthy, isTypeofObject, isJsString]

/-- Every `.ok` result of the parser body carries a confidence in `[0,1]`:
the branches return 0.8, 0.7 or a clamped value. -/
theorem tryParseAI_confidence (s : String) (r : EnhancementResult)
    (h : tryParseAI s = .ok r) : 0 ≤ r.confidence ∧ r.confidence ≤ 1 := by
  rcases hj : jsonParse (stripCodeFences (jsTrim s)) with _ | p
  · rw [tryParseAI_eq_none s hj] at h
    cases h
    norm_num
  · rw [tryParseAI_eq_some s p hj] at h
    unfold handleParsedResponse at h
    by_cases h1 : (jsTruthy p && isTypeofObject p) = true
    · rw [if_pos h1] at h
      by_cases h2 : optTruthy (jsGetProp p "enhancedContent") = true
      · rw [if_pos h2] at h
        rcases hE : jsGetProp p "enhancedContent" with _ | v
        · rw [hE] at h2
          simp [optTruthy] at h2
        · rw [hE] at h
          cases v with
          | str s2 =>
            cases h
            exact confidenceValue_mem _
          | null => simp at h
          | bool b => simp at h
          | num q => simp at h
          | arr xs => simp at h
          | obj fs => simp at h
      · rw [if_neg h2] at h
        rw [case2_guard_false p h1] at h
        simp only [Bool.false_and, Bool.false_eq_true, if_false] at h
        cases h
        norm_num
    · rw [if_neg h1] at h
      cases h
      norm_num

/-! ### Claims C4, C5, C6, C10 about the response parser -/

/-- C4 (counterexample): for the well-formed payload
`{"enhancedContent":"Hello\nworld","improvementsSummary":["a"],"confidence":0.9}`
the parser does NOT return `"Hello\nworld"`: `formatEnhancedContent`
collapses every whitespace run — including the decoded newline — to a
single space, so the newline is not preserved. -/
theorem parse_wellformed_newline_counterexample :
    (parseAIResponse
        "\x7b\"enhancedContent\":\"Hello\\nworld\",\"improvementsSummary\":[\"a\"],\"confidence\":0.9\x7d").enhancedContent
      ≠ "Hello\nworld" := by
  intro h
  have h2 : "Hello world" = "Hello\nworld" := by
    rw [← h]
    with_unfolding_all rfl
  simp at h2

/-- C4 (amended): for that payload the parser returns
enhancedContent = `"Hello world"` (the decoded newline collapsed to a single
space by the whitespace normalization), improvementsSummary = `["a"]` and
confidence = 0.9. -/
theorem parse_wellformed_newline_amended :
    parseAIResponse
        "\x7b\"enhancedContent\":\"Hello\\nworld\",\"improvementsSummary\":[\"a\"],\"confidence\":0.9\x7d"
      = { enhancedContent := "Hello world",
          improvementsSummary := [.str "a"],
          confidence := (0.9 : ℚ) } := by
  with_unfolding_all rfl

/-- C5 (counterexample): for the plain-text payload `"Just some text"` the
parser returns confidence 0.8, which equals — is not strictly less than —
the default confidence a well-formed JSON payload without a `confidence`
field receives (also 0.8, shown on a witness payload). -/
theorem parse_plaintext_confidence_counterexample :
    (parseAIResponse "Just some text").confidence = (0.8 : ℚ) ∧
    (parseAIResponse "\x7b\"enhancedContent\":\"X\",\"improvementsSummary\":[\"a\"]\x7d").confidence
      = (0.8 : ℚ) ∧
    ¬((parseAIResponse "Just some text").confidence <
        (parseAIResponse "\x7b\"enhancedContent\":\"X\",\"improvementsSummary\":[\"a\"]\x7d").confidence) := by
  refine ⟨by with_unfolding_all rfl, by with_unfolding_all rfl, ?_⟩
  have h1 : (parseAIResponse "Just some text").confidence = (0.8 : ℚ) := by
    with_unfolding_all rfl
  have h2 : (parseAIResponse
      "\x7b\"enhancedContent\":\"X\",\"improvementsSummary\":[\"a\"]\x7d").confidence = (0.8 : ℚ) := by
    with_unfolding_all rfl
  rw [h1, h2]
  simp

/-- C5 (amended): for every payload that is not valid JSON after trimming
and fence-stripping, the parser returns the whitespace-normalized payload as
enhancedContent, a one-element improvementsSummary, and confidence 0.8 —
equal to (not strictly below) the well-formed default. -/
theorem parse_plaintext_amended (s : String)
    (h : jsonParse (stripCodeFences (jsTrim s)) = none) :
    parseAIResponse s
      = { enhancedContent := formatEnhancedContent s,
          improvementsSummary := [.str "AI enhancement applied"],
          confidence := (0.8 : ℚ) } := by
  rw [parseAIResponse, tryParseAI_eq_none s h]

/-- C5 (witness): the amended claim applied to the payload
`"Just some text"`. -/
theorem parse_plaintext_amended_witness :
    jsonParse (stripCodeFences (jsTrim "Just some text")) = none ∧
    parseAIResponse "Just some text"
      = { enhancedContent := formatEnhancedContent "Just some text",
          improvementsSummary := [.str "AI enhancement applied"],
          confidence := (0.8 : ℚ) } :=
  ⟨rfl, parse_plaintext_amended "Just some text" rfl⟩

/-- C6 (code bug): the payload `"\x7b\"enhancedContent\":\"X\"\x7d"` — a JSON
string whose content is itself a JSON object with an `enhancedContent`
field — parses to a string value, so `typeof === 'object'` is false and the
double-encoded branch (Case 2) can never run: the parser lands in the
not-an-object branch and returns the embedded JSON text verbatim with
confidence 0.7 instead of re-parsing it and returning `"X"`. -/
theorem parse_double_encoded_behavior :
    parseAIResponse "\"\x7b\\\"enhancedContent\\\":\\\"X\\\"\x7d\""
        = { enhancedContent := "\x7b\"enhancedContent\":\"X\"\x7d",
            improvementsSummary := [.str "AI enhancement applied"],
            confidence := (0.7 : ℚ) } ∧
    (parseAIResponse "\"\x7b\\\"enhancedContent\\\":\\\"X\\\"\x7d\"").enhancedContent ≠ "X" := by
  constructor
  · with_unfolding_all rfl
  · intro h
    have h2 : "\x7b\"enhancedContent\":\"X\"\x7d" = "X" := by
      rw [← h]
      with_unfolding_all rfl
    simp at h2

/-- C10: for every non-empty payload, the parser's confidence lies in the
closed interval `[0,1]`: each branch returns 0.8, 0.7, 0.6 or a value
clamped into `[0,1]`. -/
theorem parse_confidence_in_unit_interval (s : String) (hs : s ≠ "") :
    0 ≤ (parseAIResponse s).confidence ∧ (parseAIResponse s).confidence ≤ 1 := by
  rw [parseAIResponse]
  rcases htry : tryParseAI s with e | r
  · norm_num
  · exact tryParseAI_confidence s r htry

/-- C10 (witness): the bound at the concrete payload `"x"`. -/
theorem parse_confidence_in_unit_interval_witness :
    0 ≤ (parseAIResponse "x").confidence ∧ (parseAIResponse "x").confidence ≤ 1 :=
  parse_confidence_in_unit_interval "x" (by simp)

/-! ### The enhancement orchestrator `enhanceWithRetry` -/

/-- `AIEnhanceOptions` from the source (the abort signal itself lives in the
environment oracle). -/
structure AIEnhanceOptions where
  level : String
  content : String
  context : Option String
  lineCount : Option Nat

/-- The connection states of the service. -/
inductive ConnState where
  | unknown
  | connected
  | disconnected
deriving DecidableEq

/-- The mutable fields of `AIEnhancementService` touched by
`enhanceWithRetry`. -/
structure ServiceState where
  connectionState : ConnState
  lastSuccessfulRequest : Nat
  consecutiveFailures : Nat
  isOfflineMode : Bool
deriving DecidableEq

/-- Outcome of one started network attempt (`makeAIRequest` raced against
the timeout and the abort listener): either a parsed result or a rejection
carrying the thrown error's message (timeout, HTTP error, or the
cancellation message when the abort fires mid-attempt). -/
inductive AttemptResult where
  | success (r : EnhancementResult)
  | failure (message : String)

/-- The environment of one `enhance` call: the configured API key (empty
string when missing), what `window.prompt` would return when asked for a
key, the abort signal's state read at the start of attempt `i`, the network
outcome of attempt `i` when it is started, and `Date.now()` at attempt `i`. -/
structure EnhanceEnv where
  apiKey : String
  promptResult : Option String
  aborted : Nat → Bool
  outcome : Nat → AttemptResult
  now : Nat → Nat

/-- The model identifiers tried in priority order. -/
def MISTRAL_MODELS_primary : String := "mistralai/mistral-large-2407"

/-- Second candidate. -/
def MISTRAL_MODELS_fallback : String := "mistralai/mistral-small-2402"

/-- Third candidate. -/
def MISTRAL_MODELS_fast : String := "mistralai/mistral-7b-instruct"

/-- `const models = [primary, fallback, fast]`. -/
def modelCandidates : List String :=
  [MISTRAL_MODELS_primary, MISTRAL_MODELS_fallback, MISTRAL_MODELS_fast]

/-- `const maxRetries = 4` of the inner loop ("More aggressive retries";
`REQUEST_CONFIG.maxRetries = 3` is unused there). -/
def maxRetries : Nat := 4

/-- The (model, attempt) pairs visited by the two nested loops, in order. -/
def attemptSchedule : List (String × Nat) :=
  modelCandidates.flatMap (fun m => (List.range maxRetries).map (fun a => (m, a + 1)))

/-- The adaptive timeout of `makeAIRequestWithTimeout`:
`Math.min(30000 + consecutiveFailures * 5000, 60000)` milliseconds. The
model treats attempt outcomes as an oracle, so the deadline's value does not
feed back into it. -/
def adaptiveTimeout (consecutiveFailures : Nat) : Nat :=
  min (30000 + consecutiveFailures * 5000) 60000

/-- `makeAIRequestWithTimeout` at global attempt index `i`: if the signal is
already aborted it throws the cancellation error without starting a network
call; otherwise the network attempt runs (one call) and its outcome decides
the result. The boolean reports whether a network call was issued. -/
def makeAIRequestWithTimeout (env : EnhanceEnv) (i : Nat) :
    Except String EnhancementResult × Bool :=
  if env.aborted i then (.error "Enhancement cancelled by user", false)
  else
    match env.outcome i with
    | .success r => (.ok r, true)
    | .failure m => (.error m, true)

/-- `lastError?.message || 'Unknown error'`. -/
def lastErrMsg : Option String → String
  | none => "Unknown error"
  | some m => if m = "" then "Unknown error" else m

/-- Observable outcome of one `enhance` call: the returned value or thrown
error, the number of network calls issued, the number of try/catch attempt
iterations executed, and the service state afterwards. -/
structure EnhanceOutcome where
  result : Except String EnhancementResult
  networkCalls : Nat
  tries : Nat
  finalState : ServiceState

/-- The two nested retry loops of `enhanceWithRetry`: on success reset
`consecutiveFailures`, record the time, set Connected and return; on any
caught error (including the cancellation error) increment
`consecutiveFailures`, remember it as `lastError`, wait the backoff and
continue; when the schedule is exhausted set Disconnected and throw the
terminal error wrapping the last message. -/
def runAttempts (env : EnhanceEnv) :
    List (String × Nat) → Nat → Nat → Nat → ServiceState → Option String → EnhanceOutcome
  | [], _, calls, tries, st, lastError =>
    { result := .error ("AI enhancement failed after trying all models. " ++ lastErrMsg lastError),
      networkCalls := calls, tries := tries,
      finalState := { st with connectionState := .disconnected } }
  | _ :: rest, i, calls, tries, st, lastError =>
    match makeAIRequestWithTimeout env i with
    | (.ok r, _) =>
      { result := .ok r, networkCalls := calls + 1, tries := tries + 1,
        finalState := { st with consecutiveFailures := 0,
                                lastSuccessfulRequest := env.now i,
                                connectionState := .connected } }
    | (.error m, calledNet) =>
      runAttempts env rest (i + 1) (calls + (if calledNet then 1 else 0)) (tries + 1)
        { st with consecutiveFailures := st.consecutiveFailures + 1 } (some m)

/-- The key check at the top of `enhanceWithRetry`:
`if (!OPENROUTER_API_KEY)` prompt the user; a `null` or empty reply leaves
no key available. -/
def keyAvailable (env : EnhanceEnv) : Bool :=
  if env.apiKey = "" then
    match env.promptResult with
    | some k => !(k == "")
    | none => false
  else true

/-- `enhanceWithRetry`: the missing-key prompt (throwing when the user
supplies no key), the offline check, then the retry loops over the model
candidates. -/
def enhanceWithRetry (env : EnhanceEnv) (st : ServiceState) (_options : AIEnhanceOptions) :
    EnhanceOutcome :=
  if keyAvailable env = false then
    { result := .error
        "OpenRouter API key is required for AI enhancement. Please get one from https://openrouter.ai",
      networkCalls := 0, tries := 0, finalState := st }
  else if st.isOfflineMode then
    { result := .error "Device is offline. Please check your internet connection and try again.",
      networkCalls := 0, tries := 0, finalState := st }
  else
    runAttempts env attemptSchedule 0 0 0 st none

/-- `enhance` just delegates to `enhanceWithRetry`. -/
def enhance (env : EnhanceEnv) (st : ServiceState) (options : AIEnhanceOptions) :
    EnhanceOutcome :=
  enhanceWithRetry env st options

/-- If every attempt of the remaining schedule starts (no abort) and fails,
the loops walk the whole schedule: one network call and one failure count
per entry, ending Disconnected with the terminal error wrapping the last
message. -/
theorem runAttempts_all_fail (env : EnhanceEnv) (m : Nat → String) :
    ∀ (L : List (String × Nat)) (i calls tries : Nat) (st : ServiceState) (le : Option String),
    (∀ j, j < L.length → env.aborted (i + j) = false) →
    (∀ j, j < L.length → env.outcome (i + j) = .failure (m (i + j))) →
    runAttempts env L i calls tries st le =
      { result := .error ("AI enhancement failed after trying all models. " ++
            lastErrMsg (if L.length = 0 then le else some (m (i + L.length - 1)))),
        networkCalls := calls + L.length,
        tries := tries + L.length,
        finalState := { st with connectionState := .disconnected,
                                consecutiveFailures := st.consecutiveFailures + L.length } } := by
  intro L
  induction L with
  | nil =>
    intro i calls tries st le _ _
    simp [runAttempts]
  | cons p rest ih =>
    intro i calls tries st le hab hout
    have hab0 : env.aborted i = false := by simpa using hab 0 (by simp)
    have hout0 : env.outcome i = .failure (m i) := by simpa using hout 0 (by simp)
    simp only [runAttempts, makeAIRequestWithTimeout, hab0, Bool.false_eq_true, if_false, hout0,
      if_true]
    rw [ih (i + 1) (calls + 1) (tries + 1)
      { st with consecutiveFailures := st.consecutiveFailures + 1 } (some (m i))
      (by
        intro j hj
        have := hab (j + 1) (by simpa using Nat.succ_lt_succ hj)
        simpa [Nat.add_assoc, Nat.add_comm 1 j] using this)
      (by
        intro j hj
        have := hout (j + 1) (by simpa using Nat.succ_lt_succ hj)
        rw [show i + 1 + j = i + (j + 1) by omega]
        exact this)]
    rcases Nat.eq_zero_or_pos rest.length with hlen | hlen
    · simp [hlen]
    · have h1 : (rest.length = 0) = False := eq_false (by omega)
      have h2 : ((p :: rest).length = 0) = False := eq_false (by simp)
      simp only [h1, h2, if_false, List.length_cons]
      have h3 : i + 1 + rest.length - 1 = i + (rest.length + 1) - 1 := by omega
      rw [h3]
      simp only [EnhanceOutcome.mk.injEq, ServiceState.mk.injEq, and_true, true_and,
        eq_self_iff_true]
      refine ⟨by simp, by omega, by omega, by omega⟩

/-- C7: with an API key available and the device online, if all twelve
scheduled attempts (3 models x 4 retries) start and fail, `enhance` rejects
with the terminal error wrapping the last underlying error's message after
exactly 12 attempt iterations and 12 network calls, and the connection
state ends Disconnected. -/
theorem enhance_all_fail_terminal (env : EnhanceEnv) (st : ServiceState)
    (opts : AIEnhanceOptions) (m : Nat → String)
    (hkey : env.apiKey ≠ "")
    (hoff : st.isOfflineMode = false)
    (hab : ∀ i, i < 12 → env.aborted i = false)
    (hout : ∀ i, i < 12 → env.outcome i = .failure (m i))
    (hm : m 11 ≠ "") :
    (enhanceWithRetry env st opts).result
        = .error ("AI enhancement failed after trying all models. " ++ m 11) ∧
    (enhanceWithRetry env st opts).tries = 12 ∧
    (enhanceWithRetry env st opts).networkCalls = 12 ∧
    (enhanceWithRetry env st opts).finalState.connectionState = .disconnected := by
  have hk : keyAvailable env = true := by simp [keyAvailable, hkey]
  have hlen : attemptSchedule.length = 12 := rfl
  have hrun := runAttempts_all_fail env m attemptSchedule 0 0 0 st none
    (by
      intro j hj
      rw [Nat.zero_add]
      exact hab j (hlen ▸ hj))
    (by
      intro j hj
      rw [Nat.zero_add]
      exact hout j (hlen ▸ hj))
  rw [hlen] at hrun
  norm_num at hrun
  rw [lastErrMsg, if_neg hm] at hrun
  have he : enhanceWithRetry env st opts = runAttempts env attemptSchedule 0 0 0 st none := by
    rw [enhanceWithRetry, hk, hoff]
    simp
  rw [he, hrun]
  refine ⟨rfl, rfl, rfl, rfl⟩

/-- C7 (witness): a concrete environment where every attempt times out. -/
theorem enhance_all_fail_terminal_witness :
    ((enhanceWithRetry
        { apiKey := "key", promptResult := none, aborted := fun _ => false,
          outcome := fun _ => .failure "Request timeout", now := fun _ => 0 }
        { connectionState := .unknown, lastSuccessfulRequest := 0,
          consecutiveFailures := 0, isOfflineMode := false }
        { level := "spark", content := "hello", context := some "general",
          lineCount := none }).result
      = .error ("AI enhancement failed after trying all models. " ++ "Request timeout")) ∧
    ((enhanceWithRetry
        { apiKey := "key", promptResult := none, aborted := fun _ => false,
          outcome := fun _ => .failure "Request timeout", now := fun _ => 0 }
        { connectionState := .unknown, lastSuccessfulRequest := 0,
          consecutiveFailures := 0, isOfflineMode := false }
        { level := "spark", content := "hello", context := some "general",
          lineCount := none }).tries = 12) ∧
    ((enhanceWithRetry
        { apiKey := "key", promptResult := none, aborted := fun _ => false,
          outcome := fun _ => .failure "Request timeout", now := fun _ => 0 }
        { connectionState := .unknown, lastSuccessfulRequest := 0,
          consecutiveFailures := 0, isOfflineMode := false }
        { level := "spark", content := "hello", context := some "general",
          lineCount := none }).networkCalls = 12) ∧
    ((enhanceWithRetry
        { apiKey := "key", promptResult := none, aborted := fun _ => false,
          outcome := fun _ => .failure "Request timeout", now := fun _ => 0 }
        { connectionState := .unknown, lastSuccessfulRequest := 0,
          consecutiveFailures := 0, isOfflineMode := false }
        { level := "spark", content := "hello", context := some "general",
          lineCount := none }).finalState.connectionState = .disconnected) :=
  enhance_all_fail_terminal _ _ _ (fun _ => "Request timeout")
    (by simp) rfl (fun _ _ => rfl) (fun _ _ => rfl) (by simp)

/-- The network-call counter never decreases along the retry loops. -/
theorem runAttempts_calls_le (env : EnhanceEnv) :
    ∀ (L : List (String × Nat)) (i calls tries : Nat) (st : ServiceState) (le : Option String),
    calls ≤ (runAttempts env L i calls tries st le).networkCalls := by
  intro L
  induction L with
  | nil => intro i calls tries st le; simp [runAttempts]
  | cons p rest ih =>
    intro i calls tries st le
    rw [runAttempts]
    rcases hmk : makeAIRequestWithTimeout env i with ⟨e | r, b⟩
    · simp only []
      exact le_trans (by omega) (ih (i + 1) (calls + (if b then 1 else 0)) (tries + 1)
        { st with consecutiveFailures := st.consecutiveFailures + 1 } (some e))
    · simp only []
      omega

/-- If the first scheduled attempt is not pre-aborted, at least one network
call is issued. -/
theorem runAttempts_first_called (env : EnhanceEnv) (p : String × Nat)
    (rest : List (String × Nat)) (i calls tries : Nat) (st : ServiceState)
    (le : Option String) (hab : env.aborted i = false) :
    calls + 1 ≤ (runAttempts env (p :: rest) i calls tries st le).networkCalls := by
  rw [runAttempts, makeAIRequestWithTimeout, hab]
  simp only [Bool.false_eq_true, if_false]
  rcases hout : env.outcome i with r | m
  · simp
  · simp only []
    exact le_trans (by omega) (runAttempts_calls_le env rest (i + 1) (calls + 1) (tries + 1)
      { st with consecutiveFailures := st.consecutiveFailures + 1 } (some m))

/-- C1 (counterexample): an enhancement request whose content is empty
after trimming is not rejected: with a key available, the device online and
a first attempt that succeeds, `enhance` resolves successfully and issues
one network call — no ConfigurationError, not zero network calls. -/
theorem enhance_empty_content_counterexample :
    jsTrim "   " = "" ∧
    (enhanceWithRetry
        { apiKey := "key", promptResult := none, aborted := fun _ => false,
          outcome := fun _ => .success { enhancedContent := "ok",
                                         improvementsSummary := [],
                                         confidence := 1 },
          now := fun _ => 7 }
        { connectionState := .unknown, lastSuccessfulRequest := 0,
          consecutiveFailures := 0, isOfflineMode := false }
        { level := "spark", content := "   ", context := some "general",
          lineCount := none }).result
      = .ok { enhancedContent := "ok", improvementsSummary := [], confidence := 1 } ∧
    (enhanceWithRetry
        { apiKey := "key", promptResult := none, aborted := fun _ => false,
          outcome := fun _ => .success { enhancedContent := "ok",
                                         improvementsSummary := [],
                                         confidence := 1 },
          now := fun _ => 7 }
        { connectionState := .unknown, lastSuccessfulRequest := 0,
          consecutiveFailures := 0, isOfflineMode := false }
        { level := "spark", content := "   ", context := some "general",
          lineCount := none }).networkCalls = 1 :=
  ⟨rfl, rfl, rfl⟩

/-- C1 (amended): `enhanceWithRetry` performs no emptiness validation on
the content: for a request whose content is empty after trimming, with an
API key available, the device online and the signal not yet aborted, it
proceeds to issue at least one network call exactly as for any other
content. -/
theorem enhance_empty_content_amended (env : EnhanceEnv) (st : ServiceState)
    (opts : AIEnhanceOptions)
    (hempty : jsTrim opts.content = "")
    (hkey : env.apiKey ≠ "")
    (hoff : st.isOfflineMode = false)
    (hab0 : env.aborted 0 = false) :
    1 ≤ (enhanceWithRetry env st opts).networkCalls := by
  have hk : keyAvailable env = true := by simp [keyAvailable, hkey]
  have he : enhanceWithRetry env st opts = runAttempts env attemptSchedule 0 0 0 st none := by
    rw [enhanceWithRetry, hk, hoff]
    simp
  rw [he,
    show attemptSchedule = (MISTRAL_MODELS_primary, 1) :: attemptSchedule.tail from rfl]
  simpa using runAttempts_first_called env (MISTRAL_MODELS_primary, 1) attemptSchedule.tail
    0 0 0 st none hab0

/-- C1 (witness): the amended claim at a concrete empty-content request. -/
theorem enhance_empty_content_amended_witness :
    1 ≤ (enhanceWithRetry
        { apiKey := "key", promptResult := none, aborted := fun _ => false,
          outcome := fun _ => .failure "Request timeout", now := fun _ => 0 }
        { connectionState := .unknown, lastSuccessfulRequest := 0,
          consecutiveFailures := 0, isOfflineMode := false }
        { level := "glow", content := " \t ", context := none,
          lineCount := none }).networkCalls :=
  enhance_empty_content_amended _ _ _ rfl (by simp) rfl rfl

/-- C2 (code bug): with the cancellation token already triggered before any
attempt starts, every one of the 12 attempt iterations throws the
cancellation error at the pre-check (zero network calls, as claimed), but
the retry loop catches and retries each one, and `enhance` finally rejects
with the terminal wrapper error — not with the CancelledError itself — and
marks the connection Disconnected. -/
theorem enhance_precancelled_behavior :
    (enhanceWithRetry
        { apiKey := "key", promptResult := none, aborted := fun _ => true,
          outcome := fun _ => .failure "never reached", now := fun _ => 0 }
        { connectionState := .unknown, lastSuccessfulRequest := 0,
          consecutiveFailures := 0, isOfflineMode := false }
        { level := "spark", content := "hello", context := some "general",
          lineCount := none }).result
      = .error "AI enhancement failed after trying all models. Enhancement cancelled by user" ∧
    (enhanceWithRetry
        { apiKey := "key", promptResult := none, aborted := fun _ => true,
          outcome := fun _ => .failure "never reached", now := fun _ => 0 }
        { connectionState := .unknown, lastSuccessfulRequest := 0,
          consecutiveFailures := 0, isOfflineMode := false }
        { level := "spark", content := "hello", context := some "general",
          lineCount := none }).networkCalls = 0 ∧
    (enhanceWithRetry
        { apiKey := "key", promptResult := none, aborted := fun _ => true,
          outcome := fun _ => .failure "never reached", now := fun _ => 0 }
        { connectionState := .unknown, lastSuccessfulRequest := 0,
          consecutiveFailures := 0, isOfflineMode := false }
        { level := "spark", content := "hello", context := some "general",
          lineCount := none }).tries = 12 ∧
    (enhanceWithRetry
        { apiKey := "key", promptResult := none, aborted := fun _ => true,
          outcome := fun _ => .failure "never reached", now := fun _ => 0 }
        { connectionState := .unknown, lastSuccessfulRequest := 0,
          consecutiveFailures := 0, isOfflineMode := false }
        { level := "spark", content := "hello", context := some "general",
          lineCount := none }).result
      ≠ .error "Enhancement cancelled by user" := by
  refine ⟨rfl, rfl, rfl, ?_⟩
  intro h
  rw [show (enhanceWithRetry
        { apiKey := "key", promptResult := none, aborted := fun _ => true,
          outcome := fun _ => .failure "never reached", now := fun _ => 0 }
        { connectionState := .unknown, lastSuccessfulRequest := 0,
          consecutiveFailures := 0, isOfflineMode := false }
        { level := "spark", content := "hello", context := some "general",
          lineCount := none }).result
      = .error "AI enhancement failed after trying all models. Enhancement cancelled by user"
    from rfl] at h
  have h2 : "AI enhancement failed after trying all models. Enhancement cancelled by user"
      = "Enhancement cancelled by user" := by
    injection h
  exact absurd h2 (by decide)

/-- C3 (code bug): when cancellation fires during the first attempt (its
race rejects with the cancellation error, one network call), the loop does
not propagate it: it retries and advances through all remaining candidates
(11 further iterations, each rejecting at the pre-check without a network
call) and finally rejects with the terminal wrapper error rather than the
CancelledError. -/
theorem enhance_cancel_during_attempt_behavior :
    (enhanceWithRetry
        { apiKey := "key", promptResult := none, aborted := fun i => !(i == 0),
          outcome := fun _ => .failure "Enhancement cancelled by user", now := fun _ => 0 }
        { connectionState := .unknown, lastSuccessfulRequest := 0,
          consecutiveFailures := 0, isOfflineMode := false }
        { level := "spark", content := "hello", context := some "general",
          lineCount := none }).result
      = .error "AI enhancement failed after trying all models. Enhancement cancelled by user" ∧
    (enhanceWithRetry
        { apiKey := "key", promptResult := none, aborted := fun i => !(i == 0),
          outcome := fun _ => .failure "Enhancement cancelled by user", now := fun _ => 0 }
        { connectionState := .unknown, lastSuccessfulRequest := 0,
          consecutiveFailures := 0, isOfflineMode := false }
        { level := "spark", content := "hello", context := some "general",
          lineCount := none }).networkCalls = 1 ∧
    (enhanceWithRetry
        { apiKey := "key", promptResult := none, aborted := fun i => !(i == 0),
          outcome := fun _ => .failure "Enhancement cancelled by user", now := fun _ => 0 }
        { connectionState := .unknown, lastSuccessfulRequest := 0,
          consecutiveFailures := 0, isOfflineMode := false }
        { level := "spark", content := "hello", context := some "general",
          lineCount := none }).tries = 12 :=
  ⟨rfl, rfl, rfl⟩

/-! ### The prompt builder `getEnhancementPrompt` (claim C8) -/

/-- The `contextMap` object literal: own-property lookup by domain context
name (prototype-chain keys are not modelled); an unrecognized name yields
`undefined` (`none`). -/
def contextMap (context : String) : Option String :=
  if context = "technical" then some "software development, programming, and technical documentation"
  else if context = "creative" then some "creative writing, storytelling, and artistic expression"
  else if context = "analytical" then some "data analysis, research, and analytical thinking"
  else if context = "business" then some "business strategy, management, and commercial applications"
  else if context = "general" then some "general knowledge and communication"
  else none

/-- Static template text of the prompt, segment 1. -/
def promptPart1 : String :=
  "You are an *Elite Prompt Enhancement AI* with mastery in linguistic precision, contextual intelligence, structured reasoning, and deep domain expertise. Your responsibility is to transform any given prompt ("

/-- Static template text of the prompt, segment 2. -/
def promptPart2 : String :=
  ") into a *brilliantly reimagined, comprehensive, professional-grade version* that exceeds expectations and demonstrates profound technical knowledge. The refinement level is determined by "

/-- Static template text of the prompt, segment 3. -/
def promptPart3 : String :=
  ", and you must adapt your enhancement strategy accordingly."

/-- Static template text of the prompt, segment 4. -/
def promptPart4 : String :=
  "\n\nYou must analyze every phrase, detect missing context, expand technical depth, optimize readability, and reconstruct the prompt into a flawless form that feels natural, authoritative, and demonstrates expert-level understanding of the subject matter.\n\nYour final answer must strictly follow this JSON structure:\n\n\x7b\n  \"enhancedContent\": \"The fully enhanced, polished, and professional version of the given prompt with comprehensive technical details, implementation guidance, and expert insights.\",\n  \"improvementsSummary\": [\"Detailed bullet points describing what was improved (clarity, structure, depth, examples, reasoning, optimizations, technical specifications, etc.).\"],\n  \"confidence\": 0.85\n\x7d\n\n### Enhancement Framework:\n\n*1. Spark (Foundational Level)*  \n- Fix grammar, spelling, and structure inconsistencies.  \n- Improve readability and precision of wording.  \n- Add essential context and clarifications.  \n- Make the request clear, specific, and unambiguous.  \n- Add basic technical considerations if applicable.\n\n*2. Glow (Intermediate Level)*  \n- Add comprehensive role-playing context (assign AI expert persona with specific credentials).  \n- Restructure into logical, step-by-step instructions with detailed sub-steps.  \n- Provide illustrative examples, analogies, and real-world applications.  \n- Ensure smooth narrative flow and professional tone.  \n- Tailor refinements to the implied use-case with industry best practices.\n- Add technical specifications, requirements, and implementation guidelines.\n- Include content structure suggestions and feature recommendations.\n\n*3. Blaze (Expert Level)*  \n- Apply systematic thinking and multi-layered reasoning frameworks.  \n- Integrate validation, error-checking, and comprehensive fallback strategies.  \n- Provide detailed analytical structures for deep problem-solving.  \n- Suggest optimizations for performance, efficiency, scalability, and user experience.  \n- Add quality assurance measures, testing strategies, and success metrics.\n- Include advanced technical architecture, technology stack recommendations, and industry standards.\n- Provide detailed implementation roadmap, timeline considerations, and resource requirements.\n- Add compliance, security, accessibility, and maintenance considerations.\n\n### Special Instructions for Technical Contexts:\nWhen enhancing technical prompts, you MUST:\n\n**Technical Depth Enhancement:**\n- Demonstrate deep technical knowledge of the subject domain\n- Include specific technologies, frameworks, tools, and methodologies\n- Provide detailed technical specifications and requirements\n- Add architecture considerations, scalability factors, and performance metrics\n- Include security, compliance, and accessibility requirements\n- Suggest modern best practices and industry standards\n\n**Content & Structure Guidance:**\n- Outline comprehensive content structure and information architecture\n- Specify required features, functionalities, and user interactions\n- Include detailed wireframes descriptions, user flows, and navigation patterns\n- Provide content strategy, SEO considerations, and marketing aspects\n- Add technical documentation requirements and API specifications\n\n**Implementation Details:**\n- Include technology stack recommendations with justifications\n- Provide development methodology suggestions (Agile, DevOps, etc.)\n- Add testing strategies, deployment considerations, and monitoring requirements\n- Include timeline estimates, resource allocation, and budget considerations\n- Specify maintenance, updates, and long-term scalability plans\n\n**Professional Expertise:**\n- Write as if you have 10+ years of experience in the specific domain\n- Reference industry standards, regulatory requirements, and compliance needs\n- Include real-world challenges, common pitfalls, and proven solutions\n- Add competitive analysis insights and market positioning strategies\n\n### Core Directives:\n- Always *respect and preserve the original intent* while dramatically expanding depth and technical accuracy.  \n- Produce enhancements that are *intellectually rigorous, technically comprehensive, and demonstrate world-class expertise*.  \n- For technical prompts, include detailed specifications, architecture, implementation guidance, and industry best practices.\n- Respond **only with the JSON object**.  \n- Ensure every enhancement feels like it was crafted by a **world-class technical expert and professional prompt engineer**.\n\n**Context:** "

/-- Static template text of the prompt, segment 5. -/
def promptPart5 : String :=
  ""

/-- Static template text of the prompt, segment 6. -/
def promptPart6 : String :=
  "\n**Original Prompt to Enhance:**\n"

/-- Static template text of the prompt, segment 7. -/
def promptPart7 : String :=
  "\n\nRespond ONLY with the JSON object, no additional text."

/-- Static text of the line-count constraint, segment 1. -/
def lineConstraintPart1 : String :=
  "\n\n**CRITICAL LINE COUNT CONSTRAINT:** The enhanced content must be EXACTLY "

/-- Static text of the line-count constraint, segment 2. -/
def lineConstraintPart2 : String :=
  " lines long. This is MANDATORY. Count each line carefully and ensure the final output has exactly "

/-- Static text of the line-count constraint, segment 3. -/
def lineConstraintPart3 : String :=
  " lines - no more, no less. Each line should end with a line break (\\n). This constraint overrides all other formatting preferences. STRICT REQUIREMENT: "

/-- Static text of the line-count constraint, segment 4. -/
def lineConstraintPart4 : String :=
  " lines only."

/-- `lineCount ? `...` : ''`: zero is falsy, so a zero line count also
yields the empty constraint. -/
def lineConstraintStr (lineCount : Option Nat) : String :=
  match lineCount with
  | none => ""
  | some n =>
    if n = 0 then ""
    else lineConstraintPart1 ++ toString n ++ lineConstraintPart2 ++ toString n ++
      lineConstraintPart3 ++ toString n ++ lineConstraintPart4

/-- `getEnhancementPrompt` from the source: the template literal with its
six interpolations (`content` twice, the level with `shine` renamed to
`blaze`, the line constraint twice, and the context phrase, where an
unrecognized context interpolates the text `undefined`). The `context`
parameter defaults to `general` at the call sites. -/
def getEnhancementPrompt (content level : String) (context : String)
    (lineCount : Option Nat) : String :=
  promptPart1 ++ content ++ promptPart2 ++
    (if level = "shine" then "blaze" else level) ++ promptPart3 ++
    lineConstraintStr lineCount ++ promptPart4 ++
    (match contextMap context with
     | some s => s
     | none => "undefined") ++ promptPart5 ++
    lineConstraintStr lineCount ++ promptPart6 ++ content ++ promptPart7

/-- An infix of a list is an infix of any left-extension of it. -/
theorem isInfix_append_left {α : Type} (t : List α) {l m : List α} (h : l <:+: m) :
    l <:+: t ++ m := by
  rcases h with ⟨s2, t2, heq⟩
  exact ⟨t ++ s2, t2, by rw [← heq]; simp⟩

/-- C8 (amended): the Prompt Builder never fails. For every content, every
level (an unrecognized level is interpolated verbatim) and every
domainContext outside the enumerated set, it still produces a non-empty
prompt, in which the context slot holds the literal text `undefined`
(JavaScript's rendering of the failed map lookup). -/
theorem prompt_builder_invalid_amended (content level ctx : String) (lc : Option Nat)
    (h : contextMap ctx = none) :
    getEnhancementPrompt content level ctx lc ≠ "" ∧
    "undefined".data <:+: (getEnhancementPrompt content level ctx lc).data := by
  have hinfx : "undefined".data <:+: (getEnhancementPrompt content level ctx lc).data := by
    rw [getEnhancementPrompt, h]
    simp only [String.data_append, List.append_assoc]
    refine isInfix_append_left _ ?_
    refine isInfix_append_left _ ?_
    refine isInfix_append_left _ ?_
    refine isInfix_append_left _ ?_
    refine isInfix_append_left _ ?_
    refine isInfix_append_left _ ?_
    refine isInfix_append_left _ ?_
    exact (List.prefix_append _ _).isInfix
  refine ⟨?_, hinfx⟩
  intro hEq
  rw [hEq] at hinfx
  have : "undefined".data.length ≤ (0 : Nat) := by
    simpa using hinfx.sublist.length_le
  simp at this

/-- C8 (witness): the amended claim at the concrete invalid input
(level `"mystery"`, domainContext `"alienContext"`). -/
theorem prompt_builder_invalid_amended_witness :
    getEnhancementPrompt "hi" "mystery" "alienContext" none ≠ "" ∧
    "undefined".data <:+: (getEnhancementPrompt "hi" "mystery" "alienContext" none).data :=
  prompt_builder_invalid_amended "hi" "mystery" "alienContext" none rfl

/-- C8 (counterexample): for the out-of-range level `"mystery"` and
domainContext `"alienContext"` the Prompt Builder does not fail: it returns
a (non-empty) prompt. The source has no validation and no ConfigurationError
path; an unrecognized context merely interpolates `undefined`. -/
theorem prompt_builder_invalid_counterexample :
    getEnhancementPrompt "hi" "mystery" "alienContext" none ≠ "" := by
  intro hEq
  have h2 := congrArg String.data hEq
  rw [getEnhancementPrompt] at h2
  simp only [String.data_append, List.append_assoc] at h2
  have h3 : promptPart1.data = [] := by
    have h4 : promptPart1.data ++ ("hi".data ++ (promptPart2.data ++ ("mystery".data ++
        (promptPart3.data ++ ((lineConstraintStr none).data ++ (promptPart4.data ++
        ((match contextMap "alienContext" with
          | some s => s
          | none => "undefined").data ++ (promptPart5.data ++ ((lineConstraintStr none).data ++
        (promptPart6.data ++ ("hi".data ++ promptPart7.data))))))))))) = [] := h2
    exact (List.append_eq_nil.mp h4).1
  have h5 : promptPart1.data.length = 0 := by rw [h3]; rfl
  rw [show promptPart1.data.length = 207 from rfl] at h5
  simp at h5
